import Mathlib

/-!
Shallow embedding of the atomic-swap lifecycle coordinator of
src/src/skills/lendaswap.ts and the funding-wait primitive of
src/src/skills/arkadeBitcoin.ts, with theorems checking the
natural-language specification against the code.

JavaScript numbers are modelled as exact rationals extended with the
IEEE special values NaN and plus or minus Infinity (type JsNum); the
claims under check concern zero-division guards, sign and clamping
behaviour, which this model captures exactly.
-/

/-- Model of a JavaScript number: a finite value (exact rational) or one
of the special values Infinity, -Infinity, NaN. -/
inductive JsNum where
  | fin (q : ℚ)
  | inf
  | negInf
  | nan
deriving DecidableEq, Repr

namespace JsNum

/-- JS addition restricted to the cases arising here. -/
def add : JsNum → JsNum → JsNum
  | fin a, fin b => fin (a + b)
  | fin _, inf => inf
  | fin _, negInf => negInf
  | inf, fin _ => inf
  | negInf, fin _ => negInf
  | inf, inf => inf
  | negInf, negInf => negInf
  | inf, negInf => nan
  | negInf, inf => nan
  | nan, _ => nan
  | _, nan => nan

/-- JS subtraction. -/
def sub : JsNum → JsNum → JsNum
  | fin a, fin b => fin (a - b)
  | fin _, inf => negInf
  | fin _, negInf => inf
  | inf, fin _ => inf
  | negInf, fin _ => negInf
  | inf, negInf => inf
  | negInf, inf => negInf
  | inf, inf => nan
  | negInf, negInf => nan
  | nan, _ => nan
  | _, nan => nan

/-- JS multiplication. -/
def mul : JsNum → JsNum → JsNum
  | fin a, fin b => fin (a * b)
  | fin a, inf => if 0 < a then inf else if a < 0 then negInf else nan
  | fin a, negInf => if 0 < a then negInf else if a < 0 then inf else nan
  | inf, fin b => if 0 < b then inf else if b < 0 then negInf else nan
  | negInf, fin b => if 0 < b then negInf else if b < 0 then inf else nan
  | inf, inf => inf
  | inf, negInf => negInf
  | negInf, inf => negInf
  | negInf, negInf => inf
  | nan, _ => nan
  | _, nan => nan

/-- JS division: division of a nonzero finite value by zero yields a
signed infinity, 0/0 yields NaN (the IEEE behaviour JavaScript inherits). -/
def div : JsNum → JsNum → JsNum
  | fin a, fin b =>
      if b = 0 then (if 0 < a then inf else if a < 0 then negInf else nan)
      else fin (a / b)
  | fin _, inf => fin 0
  | fin _, negInf => fin 0
  | inf, fin b => if 0 ≤ b then inf else negInf
  | negInf, fin b => if 0 ≤ b then negInf else inf
  | inf, inf => nan
  | inf, negInf => nan
  | negInf, inf => nan
  | negInf, negInf => nan
  | nan, _ => nan
  | _, nan => nan

/-- Math.floor. -/
def floorJs : JsNum → JsNum
  | fin a => fin ⌊a⌋
  | inf => inf
  | negInf => negInf
  | nan => nan

/-- Math.max, which returns NaN if any argument is NaN. -/
def maxJs : JsNum → JsNum → JsNum
  | nan, _ => nan
  | _, nan => nan
  | inf, _ => inf
  | _, inf => inf
  | negInf, b => b
  | a, negInf => a
  | fin a, fin b => fin (max a b)

/-- The JS comparison x > 0 (false for NaN). -/
def gtZero : JsNum → Bool
  | fin a => decide (0 < a)
  | inf => true
  | negInf => false
  | nan => false

/-- A JsNum is finite when it is neither NaN nor an infinity. -/
def isFinite : JsNum → Bool
  | fin _ => true
  | _ => false

end JsNum

instance : Add JsNum := ⟨JsNum.add⟩

instance : Sub JsNum := ⟨JsNum.sub⟩

instance : Mul JsNum := ⟨JsNum.mul⟩

instance : Div JsNum := ⟨JsNum.div⟩

@[simp] theorem JsNum.fin_add_fin (a b : ℚ) :
    JsNum.fin a + JsNum.fin b = JsNum.fin (a + b) := rfl

@[simp] theorem JsNum.fin_sub_fin (a b : ℚ) :
    JsNum.fin a - JsNum.fin b = JsNum.fin (a - b) := rfl

@[simp] theorem JsNum.fin_mul_fin (a b : ℚ) :
    JsNum.fin a * JsNum.fin b = JsNum.fin (a * b) := rfl

theorem JsNum.fin_div_fin (a b : ℚ) (hb : b ≠ 0) :
    JsNum.fin a / JsNum.fin b = JsNum.fin (a / b) := by
  show JsNum.div _ _ = _
  simp [JsNum.div, hb]

@[simp] theorem JsNum.floorJs_fin (a : ℚ) :
    JsNum.floorJs (JsNum.fin a) = JsNum.fin ⌊a⌋ := rfl

@[simp] theorem JsNum.maxJs_fin_fin (a b : ℚ) :
    JsNum.maxJs (JsNum.fin a) (JsNum.fin b) = JsNum.fin (max a b) := rfl

@[simp] theorem JsNum.gtZero_fin (a : ℚ) :
    JsNum.gtZero (JsNum.fin a) = decide (0 < a) := rfl

/-- The normalized swap status vocabulary (StablecoinSwapStatus in
src/src/skills/types). -/
inductive StablecoinSwapStatus where
  | pending
  | funded
  | processing
  | completed
  | expired
  | refunded
  | failed
deriving DecidableEq, BEq, Repr

/-- Embedding of mapSwapStatus (src/src/skills/lendaswap.ts:72-101): the
switch over the SDK status string, each group of fall-through cases
rendered as a disjunction, with the default arm returning pending. -/
def mapSwapStatus (sdkStatus : String) : StablecoinSwapStatus :=
  if sdkStatus = "pending" then .pending
  else if sdkStatus = "clientfundingseen" ∨ sdkStatus = "clientfunded" then .funded
  else if sdkStatus = "serverfunded" ∨ sdkStatus = "clientredeeming" then .processing
  else if sdkStatus = "clientredeemed" ∨ sdkStatus = "serverredeemed" ∨
      sdkStatus = "clientredeemedandclientrefunded" then .completed
  else if sdkStatus = "expired" ∨ sdkStatus = "clientfundedtoolate" then .expired
  else if sdkStatus = "clientrefunded" ∨ sdkStatus = "clientfundedserverrefunded" ∨
      sdkStatus = "clientrefundedserverfunded" ∨
      sdkStatus = "clientrefundedserverrefunded" then .refunded
  else if sdkStatus = "clientinvalidfunded" then .failed
  else .pending

/-- The SDK status strings that appear as explicit cases of the switch in
mapSwapStatus. -/
def recognizedStatuses : List String :=
  ["pending", "clientfundingseen", "clientfunded", "serverfunded",
   "clientredeeming", "clientredeemed", "serverredeemed",
   "clientredeemedandclientrefunded", "expired", "clientfundedtoolate",
   "clientrefunded", "clientfundedserverrefunded",
   "clientrefundedserverfunded", "clientrefundedserverrefunded",
   "clientinvalidfunded"]

/-- Embedding of isTerminalStatus (src/src/skills/lendaswap.ts:106-113). -/
def isTerminalStatus (status : StablecoinSwapStatus) : Bool :=
  status == .completed || status == .expired ||
    status == .refunded || status == .failed

/-- Fields of the remote quote response consumed by the quote engine
(exchange_rate is the parseFloat of the remote string, so it may a priori
be any JS number; the fee fields are JSON numbers). -/
structure RemoteQuote where
  exchange_rate : JsNum
  protocol_fee : JsNum
  network_fee : JsNum
  protocol_fee_rate : JsNum
deriving DecidableEq, Repr

/-- Fee breakdown of a quote or swap result. -/
structure FeeInfo where
  amount : JsNum
  percentage : JsNum
deriving DecidableEq, Repr

/-- The StablecoinQuote value object. expiresAt is a millisecond epoch
timestamp (new Date(Date.now() + 60_000)). -/
structure StablecoinQuote where
  sourceToken : String
  targetToken : String
  sourceAmount : JsNum
  targetAmount : JsNum
  exchangeRate : JsNum
  fee : FeeInfo
  expiresAt : JsNum
deriving DecidableEq, Repr

/-- Embedding of the pure tail of getQuoteBtcToStablecoin
(src/src/skills/lendaswap.ts:289-321): the computation performed on the
remote quote once it arrives. now is Date.now() in milliseconds. -/
def getQuoteBtcToStablecoin (now sourceAmount : JsNum)
    (targetToken : String) (quote : RemoteQuote) : StablecoinQuote :=
  let rate := quote.exchange_rate
  let netSats := sourceAmount - quote.protocol_fee - quote.network_fee
  let targetAmount := (netSats / JsNum.fin 100000000) * rate
  { sourceToken := "btc_arkade"
    targetToken := targetToken
    sourceAmount := sourceAmount
    targetAmount := targetAmount
    exchangeRate := rate
    fee := { amount := quote.protocol_fee + quote.network_fee
             percentage := quote.protocol_fee_rate * JsNum.fin 100 }
    expiresAt := now + JsNum.fin 60000 }

/-- Embedding of the pure tail of getQuoteStablecoinToBtc
(src/src/skills/lendaswap.ts:323-355). -/
def getQuoteStablecoinToBtc (now sourceAmount : JsNum)
    (sourceToken : String) (quote : RemoteQuote) : StablecoinQuote :=
  let rate := quote.exchange_rate
  let grossSats := (sourceAmount / rate) * JsNum.fin 100000000
  let targetAmount := grossSats - quote.protocol_fee - quote.network_fee
  { sourceToken := sourceToken
    targetToken := "btc_arkade"
    sourceAmount := sourceAmount
    targetAmount := JsNum.maxJs (JsNum.fin 0) (JsNum.floorJs targetAmount)
    exchangeRate := rate
    fee := { amount := quote.protocol_fee + quote.network_fee
             percentage := quote.protocol_fee_rate * JsNum.fin 100 }
    expiresAt := now + JsNum.fin 60000 }

/-- Remote token metadata (the TokenInfo shape of the SDK, restricted to
the fields this module reads: chain, symbol, token_id). -/
structure TokenInfo where
  chain : String
  symbol : String
  token_id : String
deriving DecidableEq, Repr

/-- Embedding of tokenInfoToString (src/src/skills/lendaswap.ts:118-130):
the chainNames record lookup with the ?? fallback, then the btc special
case and the lowercased-symbol key. -/
def tokenInfoToString (token : TokenInfo) : String :=
  let chain :=
    if token.chain = "137" then "pol"
    else if token.chain = "1" then "eth"
    else if token.chain = "42161" then "arb"
    else if token.chain = "Arkade" then "arkade"
    else if token.chain = "Lightning" then "lightning"
    else if token.chain = "Bitcoin" then "btc"
    else token.chain
  if token.token_id = "btc" then "btc_" ++ chain
  else token.symbol.toLower ++ "_" ++ chain

/-- The EvmChain union type of src/src/skills/types. -/
inductive EvmChain where
  | polygon
  | ethereum
  | arbitrum
deriving DecidableEq, Repr

/-- Embedding of EVM_CHAIN_MAP (src/src/skills/lendaswap.ts:63-67). -/
def EVM_CHAIN_MAP : EvmChain → String
  | .polygon => "137"
  | .ethereum => "1"
  | .arbitrum => "42161"

/-- The string interpolation of an EvmChain value in the not-found error
message. -/
def evmChainName : EvmChain → String
  | .polygon => "polygon"
  | .ethereum => "ethereum"
  | .arbitrum => "arbitrum"

/-- The token cache: a JS Map in insertion order, keyed by the canonical
token string. -/
abbrev TokenCache := List (String × TokenInfo)

/-- JS Map.prototype.set: overwrite in place when the key exists,
otherwise append. -/
def mapSet (m : TokenCache) (k : String) (v : TokenInfo) : TokenCache :=
  if (List.any m (fun p => p.1 == k)) then
    List.map (fun p => if p.1 == k then (k, v) else p) m
  else m ++ [(k, v)]

/-- The cache-building loop of resolveEvmToken
(src/src/skills/lendaswap.ts:237-245): every fetched token is inserted
under its canonical key. The btc_tokens ++ evm_tokens concatenation is
taken as the input list. -/
def buildCache (tokens : List TokenInfo) : TokenCache :=
  List.foldl (fun m t => mapSet m (tokenInfoToString t) t) [] tokens

/-- The regex replace of src/src/skills/lendaswap.ts:253: strip a
trailing chain-qualifying suffix _pol, _eth or _arb. -/
def stripChainSuffix (token : String) : String :=
  if token.endsWith "_pol" ∨ token.endsWith "_eth" ∨ token.endsWith "_arb"
  then token.dropRight 4 else token

/-- The fallback linear scan of resolveEvmToken
(src/src/skills/lendaswap.ts:251-258): first token (in Map iteration
order) whose chain matches the SDK chain and whose uppercased symbol
matches the uppercased suffix-stripped token key. -/
def scanCache (cache : TokenCache) (token : String) (chain : EvmChain) :
    Option TokenInfo :=
  let sdkChain := EVM_CHAIN_MAP chain
  let symbol := (stripChainSuffix token).toUpper
  List.find? (fun t => t.chain == sdkChain && t.symbol.toUpper == symbol)
    (List.map (fun p => p.2) cache)

/-- Embedding of resolveEvmToken (src/src/skills/lendaswap.ts:233-261).
State is the optional token cache (null before the first call); the
remote getTokens payload is the parameter remoteTokens; the third
component counts remote fetches performed by this call (1 exactly when
the cache was null). Returns the resolved token or the not-found error
message. -/
def resolveEvmToken (remoteTokens : List TokenInfo)
    (tokenCache : Option TokenCache) (token : String) (chain : EvmChain) :
    Except String TokenInfo × Option TokenCache × Nat :=
  let fetched : TokenCache × Nat :=
    match tokenCache with
    | some c => (c, 0)
    | none => (buildCache remoteTokens, 1)
  let cache := fetched.1
  match List.lookup token cache with
  | some info => (.ok info, some cache, fetched.2)
  | none =>
    match scanCache cache token chain with
    | some t => (.ok t, some cache, fetched.2)
    | none =>
      (.error ("Token " ++ token ++ " on " ++ evmChainName chain ++
        " not found in available tokens"), some cache, fetched.2)

/-- A sequence of resolveEvmToken calls within one coordinator lifetime,
threading the cache state from a fresh (null) cache and summing the
remote fetches. -/
def runResolutions (remoteTokens : List TokenInfo)
    (reqs : List (String × EvmChain)) : Option TokenCache × Nat :=
  List.foldl
    (fun st req =>
      let r := resolveEvmToken remoteTokens st.1 req.1 req.2
      (r.2.1, st.2 + r.2.2))
    (none, 0) reqs

/-- Response of createArkadeToEvmSwapGeneric, restricted to the fields
swapBtcToStablecoin reads. -/
structure ArkadeToEvmSwapResponse where
  id : String
  source_amount : JsNum
  target_amount : JsNum
  fee_sats : JsNum
  vhtlc_refund_locktime : ℚ
  btc_vhtlc_address : String
  evm_htlc_address : String
deriving DecidableEq, Repr

/-- Response of createEvmToArkadeSwapGeneric, restricted to the fields
swapStablecoinToBtc reads (source_token_id is source_token.token_id). -/
structure EvmToArkadeSwapResponse where
  id : String
  status : String
  source_amount : JsNum
  target_amount : JsNum
  fee_sats : JsNum
  evm_refund_locktime : ℚ
  evm_htlc_address : String
  source_token_id : String
deriving DecidableEq, Repr

/-- The StablecoinSwapResult value object returned by the two
swap-creation operations. expiresAt is a millisecond epoch timestamp
(new Date(locktime * 1000)); paymentAddress/paymentCallData are the
paymentDetails fields. -/
structure StablecoinSwapResult where
  swapId : String
  status : StablecoinSwapStatus
  sourceAmount : JsNum
  targetAmount : JsNum
  exchangeRate : JsNum
  fee : FeeInfo
  expiresAt : ℚ
  paymentAddress : String
  paymentCallData : Option String
  htlcAddressEvm : String
  fundingTxid : Option String
deriving DecidableEq, Repr

/-- Embedding of the result construction of swapBtcToStablecoin
(src/src/skills/lendaswap.ts:357-408), after the remote creation call
and the auto-funding wallet payment (whose txid is the fundingTxid
parameter). -/
def swapBtcToStablecoin (resp : ArkadeToEvmSwapResponse)
    (fundingTxid : String) : StablecoinSwapResult :=
  let exchangeRate :=
    if resp.source_amount.gtZero && resp.target_amount.gtZero then
      resp.target_amount / (resp.source_amount / JsNum.fin 100000000)
    else JsNum.fin 0
  { swapId := resp.id
    status := .funded
    sourceAmount := resp.source_amount
    targetAmount := resp.target_amount
    exchangeRate := exchangeRate
    fee := { amount := resp.fee_sats
             percentage :=
               if resp.source_amount.gtZero then
                 (resp.fee_sats / resp.source_amount) * JsNum.fin 100
               else JsNum.fin 0 }
    expiresAt := resp.vhtlc_refund_locktime * 1000
    paymentAddress := resp.btc_vhtlc_address
    paymentCallData := none
    htlcAddressEvm := resp.evm_htlc_address
    fundingTxid := some fundingTxid }

/-- Embedding of the result construction of swapStablecoinToBtc
(src/src/skills/lendaswap.ts:410-458). -/
def swapStablecoinToBtc (resp : EvmToArkadeSwapResponse) :
    StablecoinSwapResult :=
  let exchangeRate :=
    if resp.source_amount.gtZero && resp.target_amount.gtZero then
      (resp.source_amount / resp.target_amount) * JsNum.fin 100000000
    else JsNum.fin 0
  { swapId := resp.id
    status := mapSwapStatus resp.status
    sourceAmount := resp.source_amount
    targetAmount := resp.target_amount
    exchangeRate := exchangeRate
    fee := { amount := resp.fee_sats
             percentage :=
               if resp.source_amount.gtZero then
                 (resp.fee_sats / resp.target_amount) * JsNum.fin 100
               else JsNum.fin 0 }
    expiresAt := resp.evm_refund_locktime * 1000
    paymentAddress := resp.evm_htlc_address
    paymentCallData := some resp.source_token_id
    htlcAddressEvm := resp.evm_htlc_address
    fundingTxid := none }

/-- Normalized swap direction. -/
inductive SwapDirection where
  | btc_to_stablecoin
  | stablecoin_to_btc
deriving DecidableEq, Repr

/-- The swap record returned by client.getSwap and held in the local
swap storage (restricted to the fields this module reads). created_at is
modelled as a millisecond epoch timestamp. evm_claim_txid is the
optional txid field that getSwapStatus projects (absent on shapes that
lack it). -/
structure SwapData where
  status : String
  direction : String
  source_token : TokenInfo
  target_token : TokenInfo
  source_amount : JsNum
  target_amount : JsNum
  created_at : ℚ
  evm_claim_txid : Option String
deriving DecidableEq, Repr

/-- The StablecoinSwapInfo value object. completedAt is the optional
observation timestamp. -/
structure StablecoinSwapInfo where
  id : String
  direction : SwapDirection
  status : StablecoinSwapStatus
  sourceToken : String
  targetToken : String
  sourceAmount : JsNum
  targetAmount : JsNum
  exchangeRate : JsNum
  createdAt : ℚ
  completedAt : Option ℚ
  txid : Option String
deriving DecidableEq, Repr

/-- Embedding of getSwapStatus (src/src/skills/lendaswap.ts:460-493):
the projection of the freshly fetched swap record, where now is the
Date.now() of this call (the new Date() taken when status is
completed). -/
def getSwapStatus (now : ℚ) (swapId : String) (data : SwapData) :
    StablecoinSwapInfo :=
  let direction :=
    if data.direction = "evm_to_arkade" ∨ data.direction = "evm_to_bitcoin"
    then SwapDirection.stablecoin_to_btc
    else SwapDirection.btc_to_stablecoin
  let status := mapSwapStatus data.status
  let exchangeRate :=
    if data.source_amount.gtZero && data.target_amount.gtZero then
      if direction = SwapDirection.btc_to_stablecoin then
        data.target_amount / (data.source_amount / JsNum.fin 100000000)
      else
        (data.source_amount / data.target_amount) * JsNum.fin 100000000
    else JsNum.fin 0
  { id := swapId
    direction := direction
    status := status
    sourceToken := tokenInfoToString data.source_token
    targetToken := tokenInfoToString data.target_token
    sourceAmount := data.source_amount
    targetAmount := data.target_amount
    exchangeRate := exchangeRate
    createdAt := data.created_at
    completedAt := if status = StablecoinSwapStatus.completed then some now else none
    txid := data.evm_claim_txid }

/-- A StoredSwap of the local swap storage: the swap id plus the cached
remote response (storedSwapToInfo reads only status, tokens, amounts,
created_at and direction of it; evm_claim_txid is unused there). -/
structure StoredSwap where
  swapId : String
  response : SwapData
deriving DecidableEq, Repr

/-- Embedding of storedSwapToInfo (src/src/skills/lendaswap.ts:669-707):
the projection of a locally cached swap, where now is the Date.now() of
the call (the new Date() taken when the cached status maps to
completed). The result carries no txid field. -/
def storedSwapToInfo (now : ℚ) (stored : StoredSwap) : StablecoinSwapInfo :=
  let resp := stored.response
  let direction :=
    if resp.direction = "evm_to_arkade" ∨ resp.direction = "evm_to_bitcoin"
    then SwapDirection.stablecoin_to_btc
    else SwapDirection.btc_to_stablecoin
  let status := mapSwapStatus resp.status
  let exchangeRate :=
    if resp.source_amount.gtZero && resp.target_amount.gtZero then
      if direction = SwapDirection.btc_to_stablecoin then
        resp.target_amount / (resp.source_amount / JsNum.fin 100000000)
      else
        (resp.source_amount / resp.target_amount) * JsNum.fin 100000000
    else JsNum.fin 0
  { id := stored.swapId
    direction := direction
    status := status
    sourceToken := tokenInfoToString resp.source_token
    targetToken := tokenInfoToString resp.target_token
    sourceAmount := resp.source_amount
    targetAmount := resp.target_amount
    exchangeRate := exchangeRate
    createdAt := resp.created_at
    completedAt := if status = StablecoinSwapStatus.completed then some now else none
    txid := none }

/-- Embedding of getPendingSwaps (src/src/skills/lendaswap.ts:495-512).
The per-swap authoritative re-fetch performed by the inner
this.getSwapStatus call is the oracle fetch: none models a rejected
fetch (the catch branch), some d a successful fetch returning the fresh
record d. The loop keeps a swap iff its cached status is non-terminal,
pushing the fresh projection on fetch success and the stale cached
projection on fetch failure. -/
def getPendingSwaps (now : ℚ) (fetch : String → Option SwapData) :
    List StoredSwap → List StablecoinSwapInfo
  | [] => []
  | stored :: rest =>
    let status := mapSwapStatus stored.response.status
    if !(isTerminalStatus status) then
      (match fetch stored.swapId with
       | some d => getSwapStatus now stored.swapId d
       | none => storedSwapToInfo now stored) ::
        getPendingSwaps now fetch rest
    else getPendingSwaps now fetch rest

/-- Asynchronous completions that can reach waitForIncomingFunds
(src/src/skills/arkadeBitcoin.ts:214-278) on the single-threaded event
loop: a funds notification (carrying its payload), the resolution of the
subscription-setup promise (delivering the unsubscribe handle), the
rejection of that promise with an error, and the timer firing. -/
inductive WaitEvent where
  | notify (amount : ℕ)
  | subResolve
  | subReject (e : String)
  | timerFire
deriving DecidableEq, Repr

/-- How the outer promise of waitForIncomingFunds settles. -/
inductive WaitOutcome where
  | funds (amount : ℕ)
  | timeoutError
  | subError (e : String)
deriving DecidableEq, Repr

/-- The mutable locals of waitForIncomingFunds: the settled first-wins
guard, the settlement of the promise, whether stopSubscription has been
delivered, how many times it was invoked, whether the timer was
scheduled (timeoutMs was passed) and whether it was cleared. -/
structure WaitState where
  settled : Bool
  resolution : Option WaitOutcome
  subAvailable : Bool
  stopCalls : ℕ
  timerSet : Bool
  timerCleared : Bool
deriving DecidableEq, Repr

/-- State right after the promise executor ran: nothing settled, the
timer scheduled exactly when a timeout was requested. -/
def initWaitState (hasTimeout : Bool) : WaitState :=
  { settled := false
    resolution := none
    subAvailable := false
    stopCalls := 0
    timerSet := hasTimeout
    timerCleared := false }

/-- One event-loop callback of waitForIncomingFunds, exactly as the
source handlers read: the notification callback and the rejection
handler are no-ops once settled; the subscription .then handler records
the unsubscribe handle and invokes it at once when already settled; the
timer callback (which can only run when scheduled and not yet cleared)
rejects with the timeout error unless settled. -/
def waitStep (s : WaitState) (e : WaitEvent) : WaitState :=
  match e with
  | .notify a =>
      if s.settled then s
      else { s with settled := true, resolution := some (.funds a) }
  | .subResolve =>
      if s.settled then
        { s with subAvailable := true, stopCalls := s.stopCalls + 1 }
      else { s with subAvailable := true }
  | .subReject err =>
      if s.settled then s
      else { s with settled := true, resolution := some (.subError err) }
  | .timerFire =>
      if s.timerSet && !s.timerCleared && !s.settled then
        { s with settled := true, resolution := some .timeoutError }
      else s

/-- Run a sequence of event-loop callbacks. -/
def processEvents (s : WaitState) (evs : List WaitEvent) : WaitState :=
  List.foldl waitStep s evs

/-- The finally block of waitForIncomingFunds, which runs once the outer
await resumes: clearTimeout when a timer id exists, then one
stopSubscription() call when the handle exists. -/
def finallyCleanup (s : WaitState) : WaitState :=
  let s1 := if s.timerSet then { s with timerCleared := true } else s
  if s1.subAvailable then { s1 with stopCalls := s1.stopCalls + 1 } else s1

/-- A complete run of waitForIncomingFunds: the callbacks pre fire, the
settled promise resumes the await and the finally block runs, then the
late callbacks post fire. -/
def runWait (hasTimeout : Bool) (pre post : List WaitEvent) : WaitState :=
  processEvents (finallyCleanup (processEvents (initWaitState hasTimeout) pre)) post

/-- The outcome of the first event that can settle the promise: a
notification resolves with its payload, a subscription-setup rejection
rejects with that error, the timer (when one was scheduled) rejects with
the timeout error; subscription-setup success never settles the
promise. -/
def firstOutcome (hasTimeout : Bool) : List WaitEvent → Option WaitOutcome
  | [] => none
  | .notify a :: _ => some (.funds a)
  | .subReject e :: _ => some (.subError e)
  | .timerFire :: rest =>
      if hasTimeout then some .timeoutError else firstOutcome hasTimeout rest
  | .subResolve :: rest => firstOutcome hasTimeout rest

/-- Shared concrete token metadata for concrete-input theorems. -/
def tokBtcArkade : TokenInfo := { chain := "Arkade", symbol := "BTC", token_id := "btc" }

/-- Shared concrete token metadata for concrete-input theorems. -/
def tokUsdcPol : TokenInfo := { chain := "137", symbol := "USDC", token_id := "usdc" }

/-- A swap record with the given status, direction and amounts, over the
shared concrete tokens. -/
def mkSwapData (stat dir : String) (s t : ℚ) : SwapData :=
  { status := stat
    direction := dir
    source_token := tokBtcArkade
    target_token := tokUsdcPol
    source_amount := JsNum.fin s
    target_amount := JsNum.fin t
    created_at := 0
    evm_claim_txid := none }

/-- C1: mapSwapStatus is total (it is a Lean function into the
seven-valued normalized status type, so it never throws and always lands
in the closed set), it follows the spec table on each recognized remote
status, and every string outside the recognized vocabulary maps to
pending. -/
theorem C1_mapSwapStatus_table :
    (∀ s : String, mapSwapStatus s ∈
      [StablecoinSwapStatus.pending, StablecoinSwapStatus.funded,
       StablecoinSwapStatus.processing, StablecoinSwapStatus.completed,
       StablecoinSwapStatus.expired, StablecoinSwapStatus.refunded,
       StablecoinSwapStatus.failed]) ∧
    (mapSwapStatus "pending" = .pending ∧
     mapSwapStatus "clientfundingseen" = .funded ∧
     mapSwapStatus "clientfunded" = .funded ∧
     mapSwapStatus "serverfunded" = .processing ∧
     mapSwapStatus "clientredeeming" = .processing ∧
     mapSwapStatus "clientredeemed" = .completed ∧
     mapSwapStatus "serverredeemed" = .completed ∧
     mapSwapStatus "clientredeemedandclientrefunded" = .completed ∧
     mapSwapStatus "expired" = .expired ∧
     mapSwapStatus "clientfundedtoolate" = .expired ∧
     mapSwapStatus "clientrefunded" = .refunded ∧
     mapSwapStatus "clientfundedserverrefunded" = .refunded ∧
     mapSwapStatus "clientrefundedserverfunded" = .refunded ∧
     mapSwapStatus "clientrefundedserverrefunded" = .refunded ∧
     mapSwapStatus "clientinvalidfunded" = .failed) ∧
    (∀ s : String, s ∉ recognizedStatuses → mapSwapStatus s = .pending) := by
  refine ⟨?_, by decide, ?_⟩
  · intro s
    unfold mapSwapStatus
    split_ifs <;> simp
  · intro s hs
    simp only [recognizedStatuses, List.mem_cons, List.not_mem_nil, or_false,
      not_or] at hs
    obtain ⟨h1, h2, h3, h4, h5, h6, h7, h8, h9, h10, h11, h12, h13, h14, h15⟩ := hs
    simp [mapSwapStatus, h1, h2, h3, h4, h5, h6, h7, h8, h9, h10, h11, h12, h13, h14, h15]

/-- Witness for C1 at a concrete unknown status string. -/
theorem C1_witness : mapSwapStatus "someunknownfuturestatus" = .pending :=
  C1_mapSwapStatus_table.2.2 "someunknownfuturestatus" (by decide)

/-- C3: at a zero exchange rate the quote engine does NOT return a zero
targetAmount: for a positive source amount the JS division by zero
propagates Infinity through the whole computation (and a zero source
amount propagates NaN), refuting the claimed zero-result guard. -/
theorem C3_zero_rate_infinity :
    (getQuoteStablecoinToBtc (JsNum.fin 0) (JsNum.fin 100) "usdc_pol"
      { exchange_rate := JsNum.fin 0, protocol_fee := JsNum.fin 0,
        network_fee := JsNum.fin 0, protocol_fee_rate := JsNum.fin 0 }).targetAmount
      = JsNum.inf ∧
    (getQuoteStablecoinToBtc (JsNum.fin 0) (JsNum.fin 0) "usdc_pol"
      { exchange_rate := JsNum.fin 0, protocol_fee := JsNum.fin 0,
        network_fee := JsNum.fin 0, protocol_fee_rate := JsNum.fin 0 }).targetAmount
      = JsNum.nan := by
  constructor <;> rfl

/-- C5: for every finite source amount and remote quote values,
getQuoteBtcToStablecoin returns targetAmount
((sourceAmount - protocolFee - networkFee) / 1e8) * rate, fee amount
protocolFee + networkFee, fee percentage protocolFeeRate * 100, and
expiresAt = creation time + 60 seconds (60000 ms). -/
theorem C5_btc_quote_shape (now a r pf nf pfr : ℚ) (tok : String) :
    (getQuoteBtcToStablecoin (JsNum.fin now) (JsNum.fin a) tok
      { exchange_rate := JsNum.fin r, protocol_fee := JsNum.fin pf,
        network_fee := JsNum.fin nf, protocol_fee_rate := JsNum.fin pfr }).targetAmount
        = JsNum.fin (((a - pf - nf) / 100000000) * r) ∧
    (getQuoteBtcToStablecoin (JsNum.fin now) (JsNum.fin a) tok
      { exchange_rate := JsNum.fin r, protocol_fee := JsNum.fin pf,
        network_fee := JsNum.fin nf, protocol_fee_rate := JsNum.fin pfr }).fee.amount
        = JsNum.fin (pf + nf) ∧
    (getQuoteBtcToStablecoin (JsNum.fin now) (JsNum.fin a) tok
      { exchange_rate := JsNum.fin r, protocol_fee := JsNum.fin pf,
        network_fee := JsNum.fin nf, protocol_fee_rate := JsNum.fin pfr }).fee.percentage
        = JsNum.fin (pfr * 100) ∧
    (getQuoteBtcToStablecoin (JsNum.fin now) (JsNum.fin a) tok
      { exchange_rate := JsNum.fin r, protocol_fee := JsNum.fin pf,
        network_fee := JsNum.fin nf, protocol_fee_rate := JsNum.fin pfr }).expiresAt
        = JsNum.fin (now + 60000) := by
  refine ⟨?_, rfl, rfl, rfl⟩
  show (JsNum.fin a - JsNum.fin pf - JsNum.fin nf) / JsNum.fin 100000000 *
      JsNum.fin r = _
  rw [JsNum.fin_sub_fin, JsNum.fin_sub_fin,
    JsNum.fin_div_fin _ _ (by norm_num), JsNum.fin_mul_fin]

/-- C6 counterexample: two successive fetches (at observation times 100
and 200 ms) of the same already-completed swap each stamp completedAt
with their own observation time, so the second fetch re-assigns
completedAt; nothing records a first observation. -/
theorem C6_counterexample :
    (getSwapStatus 100 "swap1" (mkSwapData "clientredeemed" "arkade_to_evm" 100000 95)).completedAt
      = some 100 ∧
    (getSwapStatus 200 "swap1" (mkSwapData "clientredeemed" "arkade_to_evm" 100000 95)).completedAt
      = some 200 ∧
    (getSwapStatus 200 "swap1" (mkSwapData "clientredeemed" "arkade_to_evm" 100000 95)).completedAt
      ≠ (getSwapStatus 100 "swap1" (mkSwapData "clientredeemed" "arkade_to_evm" 100000 95)).completedAt := by
  refine ⟨rfl, rfl, ?_⟩
  decide

/-- C6 amended: getSwapStatus stamps completedAt with the current
observation time on EVERY fetch whose normalized status is completed
(not only the first), and leaves it unset otherwise; no completion time
is persisted across fetches. -/
theorem C6_amended_completedAt (now : ℚ) (swapId : String) (data : SwapData) :
    (getSwapStatus now swapId data).completedAt =
      (if mapSwapStatus data.status = StablecoinSwapStatus.completed
       then some now else none) := rfl

/-- C2 counterexample: a swap whose cached status is pending but whose
authoritative re-fetch reports clientredeemed (normalized completed, a
terminal status) is still included in the pending listing — the loop
filters only on the last-cached status, never on the freshly fetched
one. -/
theorem C2_counterexample :
    ((getPendingSwaps 0
        (fun _ => some (mkSwapData "clientredeemed" "arkade_to_evm" 100000 95))
        [{ swapId := "swap1",
           response := mkSwapData "pending" "arkade_to_evm" 100000 95 }]).map
      (fun i => i.status) = [StablecoinSwapStatus.completed]) ∧
    isTerminalStatus StablecoinSwapStatus.completed = true := by
  exact ⟨rfl, rfl⟩

/-- C2 amended: getPendingSwaps excludes exactly the swaps whose
last-cached status is terminal; every other swap is included — as the
freshly fetched projection when the per-swap re-fetch succeeds (even
when that fresh status is terminal), and as the stale cached projection
when the re-fetch fails, so one failed re-fetch never fails the whole
listing. -/
theorem C2_amended_pending_listing (now : ℚ) (fetch : String → Option SwapData)
    (swaps : List StoredSwap) :
    getPendingSwaps now fetch swaps =
      (swaps.filter
        (fun st => !(isTerminalStatus (mapSwapStatus st.response.status)))).map
        (fun st =>
          match fetch st.swapId with
          | some d => getSwapStatus now st.swapId d
          | none => storedSwapToInfo now st) := by
  induction swaps with
  | nil => rfl
  | cons st rest ih =>
    by_cases h : isTerminalStatus (mapSwapStatus st.response.status) = true
    · simp [getPendingSwaps, List.filter_cons, h, ih]
    · simp only [Bool.not_eq_true] at h
      simp [getPendingSwaps, List.filter_cons, h, ih]

/-- Floor commutes with clamping at zero. -/
theorem max_zero_floor_comm (x : ℚ) :
    max 0 ((⌊x⌋ : ℤ) : ℚ) = ((⌊max 0 x⌋ : ℤ) : ℚ) := by
  rcases le_total x 0 with h | h
  · have hf : ⌊x⌋ ≤ 0 := by
      simpa using Int.floor_le_floor h
    rw [max_eq_left h, max_eq_left]
    · simp
    · exact_mod_cast hf
  · have hf : (0 : ℤ) ≤ ⌊x⌋ := by
      simpa using Int.floor_le_floor h
    rw [max_eq_right h, max_eq_right]
    exact_mod_cast hf

/-- C4: for a finite positive rate and finite amounts and fees,
getQuoteStablecoinToBtc returns
targetAmount = floor (max 0 (grossSats - protocolFee - networkFee)) with
grossSats = (sourceAmount / rate) * 1e8; the result is never negative,
and when the fees reach or exceed the gross sats it is exactly 0. -/
theorem C4_stablecoin_quote_clamp (now a r pf nf pfr : ℚ) (tok : String)
    (hr : 0 < r) :
    ((getQuoteStablecoinToBtc (JsNum.fin now) (JsNum.fin a) tok
      { exchange_rate := JsNum.fin r, protocol_fee := JsNum.fin pf,
        network_fee := JsNum.fin nf, protocol_fee_rate := JsNum.fin pfr }).targetAmount
        = JsNum.fin ((⌊max 0 ((a / r) * 100000000 - pf - nf)⌋ : ℤ) : ℚ)) ∧
    (∀ z : ℚ,
      (getQuoteStablecoinToBtc (JsNum.fin now) (JsNum.fin a) tok
        { exchange_rate := JsNum.fin r, protocol_fee := JsNum.fin pf,
          network_fee := JsNum.fin nf, protocol_fee_rate := JsNum.fin pfr }).targetAmount
          = JsNum.fin z → 0 ≤ z) ∧
    ((a / r) * 100000000 - pf - nf ≤ 0 →
      (getQuoteStablecoinToBtc (JsNum.fin now) (JsNum.fin a) tok
        { exchange_rate := JsNum.fin r, protocol_fee := JsNum.fin pf,
          network_fee := JsNum.fin nf, protocol_fee_rate := JsNum.fin pfr }).targetAmount
          = JsNum.fin 0) := by
  have hmain :
      (getQuoteStablecoinToBtc (JsNum.fin now) (JsNum.fin a) tok
        { exchange_rate := JsNum.fin r, protocol_fee := JsNum.fin pf,
          network_fee := JsNum.fin nf, protocol_fee_rate := JsNum.fin pfr }).targetAmount
        = JsNum.fin (max 0 ((⌊(a / r) * 100000000 - pf - nf⌋ : ℤ) : ℚ)) := by
    show JsNum.maxJs (JsNum.fin 0)
      (JsNum.floorJs (JsNum.fin a / JsNum.fin r * JsNum.fin 100000000 -
        JsNum.fin pf - JsNum.fin nf)) = _
    rw [JsNum.fin_div_fin _ _ (ne_of_gt hr), JsNum.fin_mul_fin,
      JsNum.fin_sub_fin, JsNum.fin_sub_fin, JsNum.floorJs_fin,
      JsNum.maxJs_fin_fin]
  refine ⟨?_, ?_, ?_⟩
  · rw [hmain, max_zero_floor_comm]
  · intro z hz
    rw [hmain] at hz
    injection hz with h
    rw [← h]
    exact le_max_left 0 _
  · intro hle
    have h2 : ((⌊(a / r) * 100000000 - pf - nf⌋ : ℤ) : ℚ) ≤ 0 := by
      exact_mod_cast Int.floor_nonpos hle
    rw [hmain, max_eq_left h2]

/-- Witness for C4 at concrete inputs where the fees exceed the gross
sats proceeds, clamping the result to zero. -/
theorem C4_witness :
    (getQuoteStablecoinToBtc (JsNum.fin 0) (JsNum.fin 100) "usdc_pol"
      { exchange_rate := JsNum.fin 2, protocol_fee := JsNum.fin 6000000000,
        network_fee := JsNum.fin 0, protocol_fee_rate := JsNum.fin 0 }).targetAmount
      = JsNum.fin ((⌊max 0 ((100 / 2) * 100000000 - 6000000000 - 0 : ℚ)⌋ : ℤ) : ℚ) :=
  (C4_stablecoin_quote_clamp 0 100 2 6000000000 0 0 "usdc_pol" (by norm_num)).1

/-- A concrete-shaped createArkadeToEvmSwapGeneric response over the
given amounts and fee. -/
def mkArkadeToEvmResponse (s t f : ℚ) : ArkadeToEvmSwapResponse :=
  { id := "swapA"
    source_amount := JsNum.fin s
    target_amount := JsNum.fin t
    fee_sats := JsNum.fin f
    vhtlc_refund_locktime := 0
    btc_vhtlc_address := "arkaddr"
    evm_htlc_address := "0xhtlc" }

/-- A concrete-shaped createEvmToArkadeSwapGeneric response over the
given status, amounts and fee. -/
def mkEvmToArkadeResponse (stat : String) (s t f : ℚ) : EvmToArkadeSwapResponse :=
  { id := "swapE"
    status := stat
    source_amount := JsNum.fin s
    target_amount := JsNum.fin t
    fee_sats := JsNum.fin f
    evm_refund_locktime := 0
    evm_htlc_address := "0xhtlc"
    source_token_id := "usdc" }

/-- C9: the two creation directions use asymmetric denominators for the
fee percentage — swapBtcToStablecoin divides the sats fee by
source_amount while swapStablecoinToBtc divides it by target_amount
(both under a source_amount > 0 guard), and both report 0 when
source_amount is not positive. -/
theorem C9_fee_percentage_asymmetry (s t f s2 : ℚ) (stat : String)
    (hs : 0 < s) (ht : t ≠ 0) (hs2 : s2 ≤ 0) :
    (swapBtcToStablecoin (mkArkadeToEvmResponse s t f) "txid").fee.percentage
        = JsNum.fin ((f / s) * 100) ∧
    (swapStablecoinToBtc (mkEvmToArkadeResponse stat s t f)).fee.percentage
        = JsNum.fin ((f / t) * 100) ∧
    (swapBtcToStablecoin (mkArkadeToEvmResponse s2 t f) "txid").fee.percentage
        = JsNum.fin 0 ∧
    (swapStablecoinToBtc (mkEvmToArkadeResponse stat s2 t f)).fee.percentage
        = JsNum.fin 0 := by
  have hnot : ¬(0 < s2) := not_lt.mpr hs2
  refine ⟨?_, ?_, ?_, ?_⟩
  · show (if (JsNum.fin s).gtZero then
        (JsNum.fin f / JsNum.fin s) * JsNum.fin 100 else JsNum.fin 0) = _
    rw [JsNum.gtZero_fin, if_pos (by simpa using hs),
      JsNum.fin_div_fin _ _ (ne_of_gt hs), JsNum.fin_mul_fin]
  · show (if (JsNum.fin s).gtZero then
        (JsNum.fin f / JsNum.fin t) * JsNum.fin 100 else JsNum.fin 0) = _
    rw [JsNum.gtZero_fin, if_pos (by simpa using hs),
      JsNum.fin_div_fin _ _ ht, JsNum.fin_mul_fin]
  · show (if (JsNum.fin s2).gtZero then
        (JsNum.fin f / JsNum.fin s2) * JsNum.fin 100 else JsNum.fin 0) = _
    rw [JsNum.gtZero_fin, if_neg (by simpa using hnot)]
  · show (if (JsNum.fin s2).gtZero then
        (JsNum.fin f / JsNum.fin t) * JsNum.fin 100 else JsNum.fin 0) = _
    rw [JsNum.gtZero_fin, if_neg (by simpa using hnot)]

/-- Witness for C9 at the spec's own example numbers: source 100000
sats, fee 250 sats gives 0.25 percent in the BTC-source direction, while
the stablecoin-source direction divides the same fee by the target
amount. -/
theorem C9_witness :
    (swapBtcToStablecoin (mkArkadeToEvmResponse 100000 95 250) "txid").fee.percentage
        = JsNum.fin ((250 / 100000) * 100) ∧
    (swapStablecoinToBtc (mkEvmToArkadeResponse "pending" 100000 95 250)).fee.percentage
        = JsNum.fin ((250 / 95) * 100) := by
  have h := C9_fee_percentage_asymmetry 100000 95 250 0 "pending"
    (by norm_num) (by norm_num) (by norm_num)
  exact ⟨h.1, h.2.1⟩

/-- C10: in all four places that compute an exchange rate
(swapBtcToStablecoin, swapStablecoinToBtc, getSwapStatus and the
stored-swap projection), the rate is the guarded formula when both
amounts are positive and exactly 0 otherwise, hence always a finite
number — the division is never applied to a zero amount. -/
theorem C10_exchange_rate_guard (s t : ℚ) (f now : ℚ) (stat dir : String) :
    ((swapBtcToStablecoin (mkArkadeToEvmResponse s t f) "txid").exchangeRate
        = JsNum.fin (if 0 < s ∧ 0 < t then t / (s / 100000000) else 0)) ∧
    ((swapStablecoinToBtc (mkEvmToArkadeResponse stat s t f)).exchangeRate
        = JsNum.fin (if 0 < s ∧ 0 < t then (s / t) * 100000000 else 0)) ∧
    ((getSwapStatus now "id" (mkSwapData stat dir s t)).exchangeRate
        = JsNum.fin (if 0 < s ∧ 0 < t then
            (if dir = "evm_to_arkade" ∨ dir = "evm_to_bitcoin"
             then (s / t) * 100000000
             else t / (s / 100000000))
          else 0)) ∧
    ((storedSwapToInfo now { swapId := "id", response := mkSwapData stat dir s t }).exchangeRate
        = JsNum.fin (if 0 < s ∧ 0 < t then
            (if dir = "evm_to_arkade" ∨ dir = "evm_to_bitcoin"
             then (s / t) * 100000000
             else t / (s / 100000000))
          else 0)) ∧
    JsNum.isFinite
      ((swapBtcToStablecoin (mkArkadeToEvmResponse s t f) "txid").exchangeRate) = true ∧
    JsNum.isFinite
      ((swapStablecoinToBtc (mkEvmToArkadeResponse stat s t f)).exchangeRate) = true ∧
    JsNum.isFinite
      ((getSwapStatus now "id" (mkSwapData stat dir s t)).exchangeRate) = true ∧
    JsNum.isFinite
      ((storedSwapToInfo now { swapId := "id", response := mkSwapData stat dir s t }).exchangeRate) = true := by
  have hbtc : (swapBtcToStablecoin (mkArkadeToEvmResponse s t f) "txid").exchangeRate
      = JsNum.fin (if 0 < s ∧ 0 < t then t / (s / 100000000) else 0) := by
    show (if (JsNum.fin s).gtZero && (JsNum.fin t).gtZero then
        JsNum.fin t / (JsNum.fin s / JsNum.fin 100000000) else JsNum.fin 0) = _
    by_cases hst : 0 < s ∧ 0 < t
    · rw [if_pos (by simp [hst.1, hst.2]), if_pos hst,
        JsNum.fin_div_fin _ _ (by norm_num),
        JsNum.fin_div_fin _ _ (div_ne_zero (ne_of_gt hst.1) (by norm_num))]
    · rw [if_neg ?_, if_neg hst]
      simp only [JsNum.gtZero_fin, Bool.and_eq_true, decide_eq_true_eq]
      exact hst
  have hevm : (swapStablecoinToBtc (mkEvmToArkadeResponse stat s t f)).exchangeRate
      = JsNum.fin (if 0 < s ∧ 0 < t then (s / t) * 100000000 else 0) := by
    show (if (JsNum.fin s).gtZero && (JsNum.fin t).gtZero then
        (JsNum.fin s / JsNum.fin t) * JsNum.fin 100000000 else JsNum.fin 0) = _
    by_cases hst : 0 < s ∧ 0 < t
    · rw [if_pos (by simp [hst.1, hst.2]), if_pos hst,
        JsNum.fin_div_fin _ _ (ne_of_gt hst.2), JsNum.fin_mul_fin]
    · rw [if_neg ?_, if_neg hst]
      simp only [JsNum.gtZero_fin, Bool.and_eq_true, decide_eq_true_eq]
      exact hst
  have hget : (getSwapStatus now "id" (mkSwapData stat dir s t)).exchangeRate
      = JsNum.fin (if 0 < s ∧ 0 < t then
          (if dir = "evm_to_arkade" ∨ dir = "evm_to_bitcoin"
           then (s / t) * 100000000
           else t / (s / 100000000))
        else 0) := by
    show (if (JsNum.fin s).gtZero && (JsNum.fin t).gtZero then
        (if (if dir = "evm_to_arkade" ∨ dir = "evm_to_bitcoin"
             then SwapDirection.stablecoin_to_btc
             else SwapDirection.btc_to_stablecoin) = SwapDirection.btc_to_stablecoin
         then JsNum.fin t / (JsNum.fin s / JsNum.fin 100000000)
         else (JsNum.fin s / JsNum.fin t) * JsNum.fin 100000000)
        else JsNum.fin 0) = _
    by_cases hst : 0 < s ∧ 0 < t
    · rw [if_pos (by simp [hst.1, hst.2]), if_pos hst]
      by_cases hd : dir = "evm_to_arkade" ∨ dir = "evm_to_bitcoin"
      · rw [if_pos hd, if_pos hd, if_neg (by simp),
          JsNum.fin_div_fin _ _ (ne_of_gt hst.2), JsNum.fin_mul_fin]
      · rw [if_neg hd, if_neg hd, if_pos rfl,
          JsNum.fin_div_fin _ _ (by norm_num),
          JsNum.fin_div_fin _ _ (div_ne_zero (ne_of_gt hst.1) (by norm_num))]
    · rw [if_neg ?_, if_neg hst]
      simp only [JsNum.gtZero_fin, Bool.and_eq_true, decide_eq_true_eq]
      exact hst
  have hstored : (storedSwapToInfo now { swapId := "id", response := mkSwapData stat dir s t }).exchangeRate
      = JsNum.fin (if 0 < s ∧ 0 < t then
          (if dir = "evm_to_arkade" ∨ dir = "evm_to_bitcoin"
           then (s / t) * 100000000
           else t / (s / 100000000))
        else 0) := by
    show (if (JsNum.fin s).gtZero && (JsNum.fin t).gtZero then
        (if (if dir = "evm_to_arkade" ∨ dir = "evm_to_bitcoin"
             then SwapDirection.stablecoin_to_btc
             else SwapDirection.btc_to_stablecoin) = SwapDirection.btc_to_stablecoin
         then JsNum.fin t / (JsNum.fin s / JsNum.fin 100000000)
         else (JsNum.fin s / JsNum.fin t) * JsNum.fin 100000000)
        else JsNum.fin 0) = _
    by_cases hst : 0 < s ∧ 0 < t
    · rw [if_pos (by simp [hst.1, hst.2]), if_pos hst]
      by_cases hd : dir = "evm_to_arkade" ∨ dir = "evm_to_bitcoin"
      · rw [if_pos hd, if_pos hd, if_neg (by simp),
          JsNum.fin_div_fin _ _ (ne_of_gt hst.2), JsNum.fin_mul_fin]
      · rw [if_neg hd, if_neg hd, if_pos rfl,
          JsNum.fin_div_fin _ _ (by norm_num),
          JsNum.fin_div_fin _ _ (div_ne_zero (ne_of_gt hst.1) (by norm_num))]
    · rw [if_neg ?_, if_neg hst]
      simp only [JsNum.gtZero_fin, Bool.and_eq_true, decide_eq_true_eq]
      exact hst
  exact ⟨hbtc, hevm, hget, hstored,
    by rw [hbtc]; rfl, by rw [hevm]; rfl, by rw [hget]; rfl, by rw [hstored]; rfl⟩

/-- Once the promise is settled a single callback can no longer change
the settlement, the resolution, the timer flags or the delivered
unsubscribe handle being remembered; it can only invoke the late
unsubscribe. -/
theorem waitStep_of_settled (s : WaitState) (e : WaitEvent)
    (h : s.settled = true) :
    (waitStep s e).settled = true ∧
    (waitStep s e).resolution = s.resolution ∧
    (waitStep s e).timerSet = s.timerSet ∧
    (waitStep s e).timerCleared = s.timerCleared := by
  cases e <;> simp [waitStep, h]

/-- Settledness and resolution persist through any sequence of late
callbacks. -/
theorem processEvents_of_settled (evs : List WaitEvent) (s : WaitState)
    (h : s.settled = true) :
    (processEvents s evs).settled = true ∧
    (processEvents s evs).resolution = s.resolution ∧
    (processEvents s evs).timerSet = s.timerSet ∧
    (processEvents s evs).timerCleared = s.timerCleared := by
  induction evs generalizing s with
  | nil => exact ⟨h, rfl, rfl, rfl⟩
  | cons e rest ih =>
    have h1 := waitStep_of_settled s e h
    have h2 := ih (waitStep s e) h1.1
    exact ⟨h2.1, h2.2.1.trans h1.2.1, h2.2.2.1.trans h1.2.2.1,
      h2.2.2.2.trans h1.2.2.2⟩

/-- No callback ever changes the timer flags. -/
theorem waitStep_timer (s : WaitState) (e : WaitEvent) :
    (waitStep s e).timerSet = s.timerSet ∧
    (waitStep s e).timerCleared = s.timerCleared := by
  cases e <;> simp [waitStep] <;> split <;> simp

/-- From an unsettled state with the timer flags of the executor (timer
scheduled exactly when requested, not yet cleared) and no resolution,
processing any callback sequence settles the promise with the outcome of
the first resolving callback — later callbacks cannot override it. -/
theorem processEvents_firstOutcome (ht : Bool) (evs : List WaitEvent)
    (s : WaitState) (hset : s.settled = false) (hres : s.resolution = none)
    (htimer : s.timerSet = ht) (hcl : s.timerCleared = false) :
    (processEvents s evs).resolution = firstOutcome ht evs := by
  induction evs generalizing s with
  | nil => simpa [processEvents, firstOutcome] using hres
  | cons e rest ih =>
    cases e with
    | notify a =>
      have hstep : waitStep s (.notify a) =
          { s with settled := true, resolution := some (.funds a) } := by
        simp [waitStep, hset]
      show (processEvents (waitStep s (.notify a)) rest).resolution = _
      rw [hstep]
      simpa [firstOutcome] using
        (processEvents_of_settled rest _ rfl).2.1
    | subReject err =>
      have hstep : waitStep s (.subReject err) =
          { s with settled := true, resolution := some (.subError err) } := by
        simp [waitStep, hset]
      show (processEvents (waitStep s (.subReject err)) rest).resolution = _
      rw [hstep]
      simpa [firstOutcome] using
        (processEvents_of_settled rest _ rfl).2.1
    | subResolve =>
      have hstep : waitStep s .subResolve = { s with subAvailable := true } := by
        simp [waitStep, hset]
      show (processEvents (waitStep s .subResolve) rest).resolution = _
      rw [hstep]
      exact ih _ hset hres htimer hcl
    | timerFire =>
      cases ht with
      | true =>
        have hstep : waitStep s .timerFire =
            { s with settled := true, resolution := some .timeoutError } := by
          simp [waitStep, hset, htimer, hcl]
        show (processEvents (waitStep s .timerFire) rest).resolution = _
        rw [hstep]
        simpa [firstOutcome] using
          (processEvents_of_settled rest _ rfl).2.1
      | false =>
        have hstep : waitStep s .timerFire = s := by
          simp [waitStep, htimer]
        show (processEvents (waitStep s .timerFire) rest).resolution = _
        rw [hstep]
        simpa [firstOutcome] using ih s hset hres htimer hcl

/-- The number of unsubscribe invocations never decreases. -/
theorem processEvents_stop_mono (evs : List WaitEvent) (s : WaitState) :
    s.stopCalls ≤ (processEvents s evs).stopCalls := by
  induction evs generalizing s with
  | nil => exact le_rfl
  | cons e rest ih =>
    refine le_trans ?_ (ih (waitStep s e))
    cases e <;> simp [waitStep] <;> split <;> simp

/-- Once the unsubscribe handle was delivered it stays remembered. -/
theorem processEvents_subAvailable_mono (evs : List WaitEvent) (s : WaitState)
    (h : s.subAvailable = true) :
    (processEvents s evs).subAvailable = true := by
  induction evs generalizing s with
  | nil => exact h
  | cons e rest ih =>
    refine ih (waitStep s e) ?_
    cases e <;> simp [waitStep, h] <;> split <;> simp [h]

/-- A subscription-setup resolution anywhere in a callback sequence
leaves the unsubscribe handle remembered at the end. -/
theorem processEvents_subAvailable_of_mem (evs : List WaitEvent) (s : WaitState)
    (h : WaitEvent.subResolve ∈ evs) :
    (processEvents s evs).subAvailable = true := by
  induction evs generalizing s with
  | nil => cases h
  | cons e rest ih =>
    rcases List.mem_cons.mp h with he | hrest
    · subst he
      refine processEvents_subAvailable_mono rest (waitStep s .subResolve) ?_
      simp [waitStep]
      split <;> simp
    · exact ih (waitStep s e) hrest

/-- A subscription-setup resolution that arrives when the promise is
already settled triggers an immediate unsubscribe. -/
theorem processEvents_stop_of_settled_mem (evs : List WaitEvent) (s : WaitState)
    (hsettled : s.settled = true) (h : WaitEvent.subResolve ∈ evs) :
    1 ≤ (processEvents s evs).stopCalls := by
  induction evs generalizing s with
  | nil => cases h
  | cons e rest ih =>
    rcases List.mem_cons.mp h with he | hrest
    · subst he
      have hstep : waitStep s .subResolve =
          { s with subAvailable := true, stopCalls := s.stopCalls + 1 } := by
        simp [waitStep, hsettled]
      show 1 ≤ (processEvents (waitStep s .subResolve) rest).stopCalls
      rw [hstep]
      have hm := processEvents_stop_mono rest
        { s with subAvailable := true, stopCalls := s.stopCalls + 1 }
      exact le_trans (Nat.le_add_left 1 s.stopCalls) hm
    · exact ih (waitStep s e) ((waitStep_of_settled s e hsettled).1) hrest


/-- No callback sequence changes the timer flags. -/
theorem processEvents_timer (evs : List WaitEvent) (s : WaitState) :
    (processEvents s evs).timerSet = s.timerSet ∧
    (processEvents s evs).timerCleared = s.timerCleared := by
  induction evs generalizing s with
  | nil => exact ⟨rfl, rfl⟩
  | cons e rest ih =>
    have h1 := waitStep_timer s e
    have h2 := ih (waitStep s e)
    exact ⟨h2.1.trans h1.1, h2.2.trans h1.2⟩

/-- Field accounting of the finally block: it touches only the timer
flag and the unsubscribe counter — it clears a scheduled timer and
invokes a delivered unsubscribe handle exactly once. -/
theorem finallyCleanup_fields (s : WaitState) :
    (finallyCleanup s).settled = s.settled ∧
    (finallyCleanup s).resolution = s.resolution ∧
    (finallyCleanup s).subAvailable = s.subAvailable ∧
    (s.timerSet = true → (finallyCleanup s).timerCleared = true) ∧
    (s.timerSet = false → (finallyCleanup s).timerCleared = s.timerCleared) ∧
    s.stopCalls ≤ (finallyCleanup s).stopCalls ∧
    (s.subAvailable = true → 1 ≤ (finallyCleanup s).stopCalls) := by
  by_cases h1 : s.timerSet <;> by_cases h2 : s.subAvailable <;>
    simp [finallyCleanup, h1, h2]

/-- C7: over every interleaving of event-loop callbacks in which the
promise settles (pre: the callbacks before the await resumes and the
finally block runs; post: the late callbacks after it), (1) the
settlement is the outcome of the first resolving callback — a funds
notification resolves with its payload, a subscription-setup failure
rejects with that error, the scheduled timer rejects with the timeout
error — and the settled guard makes every later arrival a no-op; (2)
the timer is cleared whenever one was scheduled; (3) whenever the
subscription was ever set up, before or after resolution, it is
unsubscribed (by the finally block or immediately by the late .then
handler), so cleanup holds on every exit path including
subscription-setup failure. -/
theorem C7_wait_race (ht : Bool) (pre post : List WaitEvent)
    (hsettled : (processEvents (initWaitState ht) pre).settled = true) :
    (runWait ht pre post).resolution = firstOutcome ht pre ∧
    (runWait ht pre post).timerCleared = ht ∧
    (WaitEvent.subResolve ∈ pre ++ post →
      1 ≤ (runWait ht pre post).stopCalls) := by
  have hpre := processEvents_timer pre (initWaitState ht)
  set s1 := processEvents (initWaitState ht) pre with hs1
  have hres1 : s1.resolution = firstOutcome ht pre :=
    processEvents_firstOutcome ht pre (initWaitState ht) rfl rfl rfl rfl
  have hfin := finallyCleanup_fields s1
  set s2 := finallyCleanup s1 with hs2
  have hrun : runWait ht pre post = processEvents s2 post := rfl
  have hsettled2 : s2.settled = true := by rw [hfin.1]; exact hsettled
  have hpost := processEvents_of_settled post s2 hsettled2
  refine ⟨?_, ?_, ?_⟩
  · rw [hrun, hpost.2.1, hfin.2.1, hres1]
  · rw [hrun, hpost.2.2.2]
    cases ht with
    | true =>
      exact hfin.2.2.2.1 (by rw [hpre.1]; rfl)
    | false =>
      rw [hfin.2.2.2.2.1 (by rw [hpre.1]; rfl), hpre.2]
      rfl
  · intro hmem
    rw [hrun]
    rcases List.mem_append.mp hmem with hp | hp
    · have hsub1 : s1.subAvailable = true :=
        processEvents_subAvailable_of_mem pre (initWaitState ht) hp
      have h1 : 1 ≤ s2.stopCalls := hfin.2.2.2.2.2.2 hsub1
      exact le_trans h1 (processEvents_stop_mono post s2)
    · exact processEvents_stop_of_settled_mem post s2 hsettled2 hp

/-- Witness for C7: with a timeout requested, a notification carrying 5
sats fires first and the subscription handle arrives late; the promise
resolves with the notification payload, the timer is cleared and the
subscription is unsubscribed. -/
theorem C7_witness :
    (runWait true [WaitEvent.notify 5] [WaitEvent.subResolve]).resolution
        = some (WaitOutcome.funds 5) ∧
    (runWait true [WaitEvent.notify 5] [WaitEvent.subResolve]).timerCleared
        = true ∧
    1 ≤ (runWait true [WaitEvent.notify 5] [WaitEvent.subResolve]).stopCalls := by
  have h := C7_wait_race true [WaitEvent.notify 5] [WaitEvent.subResolve]
    (by decide)
  exact ⟨h.1, h.2.1, h.2.2 (by decide)⟩

/-- The cache a resolveEvmToken call works over: the stored cache when
one exists, else the one just built from the fetched token listing. -/
def effCache (remoteTokens : List TokenInfo) (st : Option TokenCache) :
    TokenCache :=
  st.getD (buildCache remoteTokens)

/-- A call with a populated cache performs no remote fetch and leaves
the cache untouched. -/
theorem resolveEvmToken_cached (rt : List TokenInfo) (c : TokenCache)
    (tok : String) (ch : EvmChain) :
    (resolveEvmToken rt (some c) tok ch).2 = (some c, 0) := by
  unfold resolveEvmToken
  cases hl : List.lookup tok c with
  | some info => simp [hl]
  | none =>
    cases hsc : scanCache c tok ch with
    | some t => simp [hl, hsc]
    | none => simp [hl, hsc]

/-- The first call (empty cache) performs exactly one remote fetch and
stores the fetched set. -/
theorem resolveEvmToken_fresh (rt : List TokenInfo)
    (tok : String) (ch : EvmChain) :
    (resolveEvmToken rt none tok ch).2 = (some (buildCache rt), 1) := by
  unfold resolveEvmToken
  cases hl : List.lookup tok (buildCache rt) with
  | some info => simp [hl]
  | none =>
    cases hsc : scanCache (buildCache rt) tok ch with
    | some t => simp [hl, hsc]
    | none => simp [hl, hsc]

/-- Once the cache is populated, any further request sequence performs
no fetch and never changes the cache. -/
theorem runResolutions_from_some (rt : List TokenInfo)
    (reqs : List (String × EvmChain)) (c : TokenCache) (n : ℕ) :
    List.foldl
      (fun st req =>
        let r := resolveEvmToken rt st.1 req.1 req.2
        (r.2.1, st.2 + r.2.2))
      (some c, n) reqs = (some c, n) := by
  induction reqs with
  | nil => rfl
  | cons req rest ih =>
    show List.foldl _
      ((resolveEvmToken rt (some c) req.1 req.2).2.1,
        n + (resolveEvmToken rt (some c) req.1 req.2).2.2) rest = _
    rw [show (resolveEvmToken rt (some c) req.1 req.2).2.1 = some c from
        congrArg Prod.fst (resolveEvmToken_cached rt c req.1 req.2),
      show (resolveEvmToken rt (some c) req.1 req.2).2.2 = 0 from
        congrArg Prod.snd (resolveEvmToken_cached rt c req.1 req.2)]
    simpa using ih

/-- C8: (1) a resolution fails with the not-found error exactly when
both the exact canonical-key lookup over the effective cache and the
fallback chain-and-stripped-symbol scan find nothing; (2) over every
request sequence in one coordinator lifetime, the total number of
remote metadata fetches is min(length, 1) — one on the first call with
an empty cache, none afterwards, so a post-fetch cache miss falls back
to the scan over the already-fetched set and never re-fetches; (3) the
first call stores exactly the fetched set and (4) later calls leave the
cache untouched with zero fetches. -/
theorem C8_token_registry :
    (∀ (rt : List TokenInfo) (st : Option TokenCache) (tok : String)
        (ch : EvmChain),
      ((resolveEvmToken rt st tok ch).1 =
          Except.error ("Token " ++ tok ++ " on " ++ evmChainName ch ++
            " not found in available tokens")
        ↔ List.lookup tok (effCache rt st) = none ∧
          scanCache (effCache rt st) tok ch = none)) ∧
    (∀ (rt : List TokenInfo) (reqs : List (String × EvmChain)),
      (runResolutions rt reqs).2 = min reqs.length 1) ∧
    (∀ (rt : List TokenInfo) (tok : String) (ch : EvmChain),
      (resolveEvmToken rt none tok ch).2 = (some (buildCache rt), 1)) ∧
    (∀ (rt : List TokenInfo) (c : TokenCache) (tok : String) (ch : EvmChain),
      (resolveEvmToken rt (some c) tok ch).2 = (some c, 0)) := by
  refine ⟨?_, ?_, resolveEvmToken_fresh, resolveEvmToken_cached⟩
  · intro rt st tok ch
    cases st with
    | some c =>
      unfold resolveEvmToken
      cases hl : List.lookup tok c with
      | some info => simp [hl, effCache]
      | none =>
        cases hsc : scanCache c tok ch with
        | some t => simp [hl, hsc, effCache]
        | none => simp [hl, hsc, effCache]
    | none =>
      unfold resolveEvmToken
      cases hl : List.lookup tok (buildCache rt) with
      | some info => simp [hl, effCache]
      | none =>
        cases hsc : scanCache (buildCache rt) tok ch with
        | some t => simp [hl, hsc, effCache]
        | none => simp [hl, hsc, effCache]
  · intro rt reqs
    cases reqs with
    | nil => rfl
    | cons req rest =>
      show (List.foldl _
        ((resolveEvmToken rt none req.1 req.2).2.1,
          0 + (resolveEvmToken rt none req.1 req.2).2.2) rest).2 = _
      rw [show (resolveEvmToken rt none req.1 req.2).2.1 =
            some (buildCache rt) from
          congrArg Prod.fst (resolveEvmToken_fresh rt req.1 req.2),
        show (resolveEvmToken rt none req.1 req.2).2.2 = 1 from
          congrArg Prod.snd (resolveEvmToken_fresh rt req.1 req.2)]
      rw [show (0 + 1 : ℕ) = 1 from rfl,
        runResolutions_from_some rt rest (buildCache rt) 1]
      exact (min_eq_right (Nat.succ_le_succ (Nat.zero_le rest.length))).symm
